import Mathlib

/-!
# todoodoo: a shallow embedding of `src/App.jsx`

The single source file is a React client over four REST endpoints.  The
embedding keeps the source's structure:

* JavaScript values (`JSVal`) with the three conversions the program relies on:
  truthiness (`!x`, `x || y`, `c ? a : b`), property reads (`x.name`) and
  template-literal conversion to a string;
* object literals with spread (`Obj.set`, `Obj.spread`);
* the `api` object: every method builds one `fetch` call (`Request`) and
  settles it against the network's answer (`FetchResult`);
* every handler (`handleSubmit`, `handleToggle`, `handleDelete`, `fetchTodos`)
  as the list of effects it performs, in source order: state writes, the
  request it awaits, and the callbacks it invokes;
* the values a render computes (`filtered`, `doneCount`, the stats line) and the
  root's choice between the login view and the list view.

The network is a parameter `net : Request → FetchResult`; nothing is assumed
about it.
-/

namespace Todoodoo

/-! ## JavaScript values -/

/-- Values the program handles: what `JSON.parse` can produce, plus `undefined`
(the result of reading an absent property, and an omitted argument).

The program does no arithmetic: of a number it reads only the text a template
literal prints for it and its truthiness.  A number is therefore represented by
that text, the result of `Number::toString`: 2 is `num "2"`, a half is
`num "0.5"`, 1e21 is `num "1e+21"`, 2^63 is `num "9223372036854776000"`, and both
zeros are `num "0"`.

An object lists its properties in order, each name once. -/
inductive JSVal where
  | undefined
  | null
  | bool (b : Bool)
  | num (text : String)
  | str (s : String)
  | arr (items : List JSVal)
  | obj (fields : List (String × JSVal))

/-- Exceptions and promise rejections that can occur in the program. -/
inductive JSError where
  /-- Thrown by `new Error(message)`. -/
  | error (message : String)
  /-- Thrown when a property of `null` or `undefined` is read or a non-function is called. -/
  | typeError
  /-- The rejection of `res.json()` when the body is not JSON. -/
  | syntaxError
  /-- The rejection of `fetch` when no response arrives. -/
  | networkError
  deriving DecidableEq, Repr

/-- The conversion `ToBoolean`, used by `!x`, `x || y`, `c ? a : b`, `if (x)`
and by `Array.prototype.filter` on its callback's result.  The falsy numbers are
the two zeros and `NaN`. -/
def JSVal.truthy : JSVal → Bool
  | .undefined => false
  | .null => false
  | .bool b => b
  | .num text => decide (text ≠ "0" ∧ text ≠ "NaN")
  | .str s => decide (s ≠ "")
  | .arr _ => true
  | .obj _ => true

/-- The expression `a || b`. -/
def JSVal.or (a b : JSVal) : JSVal :=
  if a.truthy then a else b

/-- The predicate `Array.isArray(v)`. -/
def JSVal.isArray : JSVal → Bool
  | .arr _ => true
  | _ => false

/-- The property read `v.name` for the names the program reads (`completed`,
`id`, `todos`, `token`, `access_token`): a `TypeError` on `null` and
`undefined`, the field's value on an object that has it, `undefined` otherwise. -/
def JSVal.getProp (v : JSVal) (name : String) : Except JSError JSVal :=
  match v with
  | .undefined => .error .typeError
  | .null => .error .typeError
  | .obj fields => .ok ((fields.lookup name).getD .undefined)
  | _ => .ok .undefined

mutual
/-- The conversion `ToString`, as applied by a template literal. -/
def JSVal.toStr : JSVal → String
  | .undefined => "undefined"
  | .null => "null"
  | .bool b => if b then "true" else "false"
  | .num text => text
  | .str s => s
  | .arr xs => JSVal.joinStr xs
  | .obj _ => "[object Object]"
termination_by structural v => v
/-- The text of an array: `Array.prototype.join` with a comma, where `null` and
`undefined` elements contribute the empty string. -/
def JSVal.joinStr : List JSVal → String
  | [] => ""
  | x :: rest =>
    (match x with
      | .undefined => ""
      | .null => ""
      | v => JSVal.toStr v)
      ++ (match rest with
        | [] => ""
        | _ :: _ => ",")
      ++ JSVal.joinStr rest
termination_by structural xs => xs
end

/-! ## Object literals and spread -/

/-- Defining property `k` with value `v` on an object: an existing property keeps
its position and takes the new value, a new property is added at the end. -/
def Obj.set {α : Type} : List (String × α) → String → α → List (String × α)
  | [], k, v => [(k, v)]
  | (k0, v0) :: rest, k, v =>
    if k0 = k then (k, v) :: rest else (k0, v0) :: Obj.set rest k v

/-- The object `{ ...base, ...ext }`: the properties of `ext` are defined on a
copy of `base`, one after the other. -/
def Obj.spread {α : Type} (base ext : List (String × α)) : List (String × α) :=
  ext.foldl (fun acc kv => Obj.set acc kv.1 kv.2) base

/-- The value of property `k`, if the object has it. -/
def Obj.get {α : Type} (o : List (String × α)) (k : String) : Option α :=
  o.lookup k

/-! ## The API client -/

/-- The constant `API`. -/
def API : String := "https://api.todoodoo.com"

/-- A request body: `JSON.stringify(v)`, or a `URLSearchParams` with the fields
appended to it. -/
inductive Body where
  | json (v : JSVal)
  | form (fields : List (String × String))

/-- The `options` argument of `api.request`: the properties the program ever
puts in it.  `none` is an absent property. -/
structure Options where
  method : Option String
  body : Option Body
  headers : Option (List (String × String))

/-- The default `options = {}`. -/
def Options.empty : Options :=
  ⟨none, none, none⟩

/-- One call of `fetch(url, init)`. -/
structure Request where
  url : String
  method : Option String
  body : Option Body
  headers : List (String × String)

/-- What the program reads of a response: `res.ok`, `res.status`, and the
result of `res.json()` (`none` when the body is not JSON). -/
structure Response where
  ok : Bool
  status : Nat
  body : Option JSVal

/-- The outcome of awaiting `fetch`. -/
inductive FetchResult where
  | rejected
  | resolved (res : Response)

/-- The network: the outcome of each request. -/
abbrev Net := Request → FetchResult

/-- The `headers` object built by `api.request`. -/
def api.headers (options : Options) (token : JSVal) : List (String × String) :=
  Obj.spread
    (Obj.spread [("Content-Type", "application/json")]
      (if token.truthy then [("Authorization", "Bearer " ++ token.toStr)] else []))
    (options.headers.getD [])

/-- The `fetch` call made by `api.request`: `options` spread into the init
object, with `headers` replaced by the merged headers. -/
def api.fetchCall (path : String) (options : Options) (token : JSVal) : Request :=
  { url := API ++ path
    method := options.method
    body := options.body
    headers := api.headers options token }

/-- What `api.request` does with the outcome of its `fetch`. -/
def api.settle : FetchResult → Except JSError JSVal
  | .rejected => .error .networkError
  | .resolved res =>
    if !res.ok then .error (.error ("Request failed: " ++ toString res.status))
    else
      match res.body with
      | some v => .ok v
      | none => .error .syntaxError

/-- The method `api.request(path, options, token)`: the request it issues and
the value it resolves to, or the error it rejects with. -/
def api.request (net : Net) (path : String) (options : Options) (token : JSVal) :
    Request × Except JSError JSVal :=
  (api.fetchCall path options token, api.settle (net (api.fetchCall path options token)))

/-- The method `api.login(username, password)`. -/
def api.login (net : Net) (username password : String) : Request × Except JSError JSVal :=
  api.request net "/login"
    { method := some "POST"
      body := some (.form [("username", username), ("password", password)])
      headers := some [("Content-Type", "application/x-www-form-urlencoded")] }
    .undefined

/-- The method `api.getTodos(token)`. -/
def api.getTodos (net : Net) (token : JSVal) : Request × Except JSError JSVal :=
  api.request net "/todos" Options.empty token

/-- The method `api.createTodo(token, title, date)`. -/
def api.createTodo (net : Net) (token title date : JSVal) :
    Request × Except JSError JSVal :=
  api.request net "/todos"
    { method := some "POST"
      body := some (.json (.obj [("title", title), ("date", date)]))
      headers := none }
    token

/-- The method `api.updateTodo(token, id, completed)`. -/
def api.updateTodo (net : Net) (token id completed : JSVal) : Request × Except JSError JSVal :=
  api.request net ("/todos/" ++ id.toStr)
    { method := some "PUT"
      body := some (.json (.obj [("completed", completed)]))
      headers := none }
    token

/-- The method `api.deleteTodo(token, id)`. -/
def api.deleteTodo (net : Net) (token id : JSVal) : Request × Except JSError JSVal :=
  api.request net ("/todos/" ++ id.toStr)
    { method := some "DELETE"
      body := none
      headers := none }
    token

/-! ## Login screen and root -/

/-- The state of `LoginScreen`: its four `useState` cells. -/
structure LoginScreen.State where
  username : String
  password : String
  error : String
  loading : Bool

/-- The initial state of `LoginScreen`. -/
def LoginScreen.init : LoginScreen.State :=
  ⟨"", "", "", false⟩

/-- What a `LoginScreen` handler can do: write a state cell, await a request,
call the `onLogin` prop. -/
inductive LoginScreen.Effect where
  | setLoading (b : Bool)
  | setError (msg : String)
  | fetch (req : Request)
  | onLogin (t : JSVal)

/-- The state after one effect. -/
def LoginScreen.State.apply (s : LoginScreen.State) : LoginScreen.Effect → LoginScreen.State
  | .setLoading b => { s with loading := b }
  | .setError msg => { s with error := msg }
  | .fetch _ => s
  | .onLogin _ => s

/-- The state after a handler's effects. -/
def LoginScreen.State.run (s : LoginScreen.State) (es : List LoginScreen.Effect) :
    LoginScreen.State :=
  es.foldl LoginScreen.State.apply s

/-- The `try` block of `LoginScreen.handleSubmit` after the request settled:
the argument of `onLogin`, `data.token || data.access_token`, or the exception. -/
def LoginScreen.loginToken (r : Except JSError JSVal) : Except JSError JSVal :=
  match r with
  | .error e => .error e
  | .ok data =>
    match data.getProp "token" with
    | .error e => .error e
    | .ok t => if t.truthy then .ok t else data.getProp "access_token"

/-- The handler `LoginScreen.handleSubmit`, run in state `s`. -/
def LoginScreen.handleSubmit (net : Net) (s : LoginScreen.State) : List LoginScreen.Effect :=
  if s.username = "" ∨ s.password = "" then []
  else
    [.setLoading true, .setError "", .fetch (api.login net s.username s.password).1]
      ++ (match LoginScreen.loginToken (api.login net s.username s.password).2 with
          | .ok t => [.onLogin t]
          | .error _ => [.setError "Invalid credentials. Please try again."])
      ++ [.setLoading false]

/-- The state of the root `App`: the token. -/
structure App.State where
  token : JSVal

/-- The initial state of `App`: `useState(null)`. -/
def App.init : App.State :=
  ⟨.null⟩

/-- The callback `handleLogin`. -/
def App.handleLogin (t : JSVal) (_s : App.State) : App.State :=
  ⟨t⟩

/-- The callback `handleLogout`. -/
def App.handleLogout (_s : App.State) : App.State :=
  ⟨.null⟩

/-- What `App` renders. -/
inductive App.View where
  | loginScreen
  | todoApp (token : JSVal)

/-- The body of `App`: the login view unless the token is truthy. -/
def App.render (s : App.State) : App.View :=
  if !s.token.truthy then .loginScreen else .todoApp s.token

/-- The prop `onLogin={handleLogin}`: how the root reacts to an effect of
`LoginScreen`. -/
def App.onLoginEffect (s : App.State) : LoginScreen.Effect → App.State
  | .onLogin t => App.handleLogin t s
  | _ => s

/-- The root's state after the effects of a `LoginScreen` handler. -/
def App.afterLogin (s : App.State) (es : List LoginScreen.Effect) : App.State :=
  es.foldl App.onLoginEffect s

/-! ## Todo item -/

/-- The state of `TodoItem`. -/
structure TodoItem.State where
  deleting : Bool

/-- What a `TodoItem` handler can do. -/
inductive TodoItem.Effect where
  | setDeleting (b : Bool)
  | fetch (req : Request)
  | onUpdate

/-- The state after one effect. -/
def TodoItem.State.apply (s : TodoItem.State) : TodoItem.Effect → TodoItem.State
  | .setDeleting b => { s with deleting := b }
  | .fetch _ => s
  | .onUpdate => s

/-- The state after a handler's effects. -/
def TodoItem.State.run (s : TodoItem.State) (es : List TodoItem.Effect) : TodoItem.State :=
  es.foldl TodoItem.State.apply s

/-- The handler `TodoItem.handleToggle` for the props `token` and `todo`.  The
whole body is a `try` with an empty `catch`. -/
def TodoItem.handleToggle (net : Net) (token todo : JSVal) : List TodoItem.Effect :=
  match todo.getProp "id", todo.getProp "completed" with
  | .ok id, .ok completed =>
    .fetch (api.updateTodo net token id (.bool (!completed.truthy))).1
      :: (match (api.updateTodo net token id (.bool (!completed.truthy))).2 with
          | .ok _ => [.onUpdate]
          | .error _ => [])
  | _, _ => []

/-- The handler `TodoItem.handleDelete` for the props `token` and `todo`. -/
def TodoItem.handleDelete (net : Net) (token todo : JSVal) : List TodoItem.Effect :=
  .setDeleting true
    :: (match todo.getProp "id" with
        | .ok id =>
          .fetch (api.deleteTodo net token id).1
            :: (match (api.deleteTodo net token id).2 with
                | .ok _ => [.onUpdate]
                | .error _ => [.setDeleting false])
        | .error _ => [.setDeleting false])

/-! ## Add-todo form -/

/-- The state of `AddTodoForm`; `isOpen` is the cell `open`. -/
structure AddTodoForm.State where
  title : String
  date : String
  loading : Bool
  isOpen : Bool

/-- What the `AddTodoForm` handler can do. -/
inductive AddTodoForm.Effect where
  | setTitle (v : String)
  | setDate (v : String)
  | setLoading (b : Bool)
  | setOpen (b : Bool)
  | fetch (req : Request)
  | onAdd

/-- The state after one effect. -/
def AddTodoForm.State.apply (s : AddTodoForm.State) : AddTodoForm.Effect → AddTodoForm.State
  | .setTitle v => { s with title := v }
  | .setDate v => { s with date := v }
  | .setLoading b => { s with loading := b }
  | .setOpen b => { s with isOpen := b }
  | .fetch _ => s
  | .onAdd => s

/-- The state after a handler's effects. -/
def AddTodoForm.State.run (s : AddTodoForm.State) (es : List AddTodoForm.Effect) :
    AddTodoForm.State :=
  es.foldl AddTodoForm.State.apply s

/-- The handler `AddTodoForm.handleSubmit`, run in state `s` with the prop `token`. -/
def AddTodoForm.handleSubmit (net : Net) (token : JSVal) (s : AddTodoForm.State) :
    List AddTodoForm.Effect :=
  if s.title = "" ∨ s.date = "" then []
  else
    [.setLoading true, .fetch (api.createTodo net token (.str s.title) (.str s.date)).1]
      ++ (match (api.createTodo net token (.str s.title) (.str s.date)).2 with
          | .ok _ => [.setTitle "", .setDate "", .setOpen false, .onAdd]
          | .error _ => [])
      ++ [.setLoading false]

/-! ## Todo list -/

/-- The state of `TodoApp`. -/
structure TodoApp.State where
  todos : JSVal
  loading : Bool
  filter : String

/-- The initial state of `TodoApp`. -/
def TodoApp.init : TodoApp.State :=
  ⟨.arr [], true, "all"⟩

/-- What `fetchTodos` can do. -/
inductive TodoApp.Effect where
  | setTodos (v : JSVal)
  | setLoading (b : Bool)
  | fetch (req : Request)

/-- The state after one effect. -/
def TodoApp.State.apply (s : TodoApp.State) : TodoApp.Effect → TodoApp.State
  | .setTodos v => { s with todos := v }
  | .setLoading b => { s with loading := b }
  | .fetch _ => s

/-- The state after a handler's effects. -/
def TodoApp.State.run (s : TodoApp.State) (es : List TodoApp.Effect) : TodoApp.State :=
  es.foldl TodoApp.State.apply s

/-- The `try` block of `fetchTodos` after the request settled: the argument of
`setTodos`, `Array.isArray(data) ? data : data.todos || []`, or the exception. -/
def TodoApp.fetchedTodos (r : Except JSError JSVal) : Except JSError JSVal :=
  match r with
  | .error e => .error e
  | .ok data =>
    if data.isArray then .ok data
    else
      match data.getProp "todos" with
      | .error e => .error e
      | .ok t => .ok (t.or (.arr []))

/-- The function `fetchTodos` of `TodoApp` with the prop `token`. -/
def TodoApp.fetchTodos (net : Net) (token : JSVal) : List TodoApp.Effect :=
  .fetch (api.getTodos net token).1
    :: (match TodoApp.fetchedTodos (api.getTodos net token).2 with
        | .ok v => [.setTodos v]
        | .error _ => [])
    ++ [.setLoading false]

/-- The click handler of a filter tab: `setFilter(f)`. -/
def TodoApp.setFilter (f : String) (s : TodoApp.State) : TodoApp.State :=
  { s with filter := f }

/-- The method `Array.prototype.filter` on the elements of an array: the
callback runs on each element in order, an element is kept when the result is
truthy, and the first exception of the callback ends the call. -/
def arrayFilter (cb : JSVal → Except JSError JSVal) : List JSVal → Except JSError (List JSVal)
  | [] => .ok []
  | x :: xs =>
    match cb x with
    | .error e => .error e
    | .ok keep =>
      match arrayFilter cb xs with
      | .error e => .error e
      | .ok ys => .ok (if keep.truthy then x :: ys else ys)

/-- The call `v.filter(cb)`: a `TypeError` unless `v` is an array. -/
def JSVal.filter (v : JSVal) (cb : JSVal → Except JSError JSVal) : Except JSError (List JSVal) :=
  match v with
  | .arr xs => arrayFilter cb xs
  | _ => .error .typeError

/-- The callback of `filtered`. -/
def TodoApp.filterCallback (filter : String) (t : JSVal) : Except JSError JSVal :=
  if filter = "active" then
    match t.getProp "completed" with
    | .ok c => .ok (.bool (!c.truthy))
    | .error e => .error e
  else if filter = "done" then t.getProp "completed"
  else .ok (.bool true)

/-- The constant `filtered` of a render of `TodoApp`. -/
def TodoApp.filtered (s : TodoApp.State) : Except JSError (List JSVal) :=
  s.todos.filter (TodoApp.filterCallback s.filter)

/-- The constant `doneCount` of a render of `TodoApp`. -/
def TodoApp.doneCount (s : TodoApp.State) : Except JSError Nat :=
  match s.todos.filter (fun t => t.getProp "completed") with
  | .ok ys => .ok ys.length
  | .error e => .error e

/-- The list area of the page. -/
inductive TodoApp.ListView where
  | loading
  | empty (message : String)
  | items (todos : List JSVal)

/-- What a render of `TodoApp` shows: the stats line and the list area. -/
structure TodoApp.View where
  stats : String
  list : TodoApp.ListView

/-- A render of `TodoApp`: `filtered` and `doneCount` are computed first, then
the stats line and the list area. -/
def TodoApp.render (s : TodoApp.State) : Except JSError TodoApp.View :=
  match TodoApp.filtered s, TodoApp.doneCount s, s.todos with
  | .ok filtered, .ok doneCount, .arr xs =>
    .ok
      { stats := toString doneCount ++ " of " ++ toString xs.length ++ " completed"
        list :=
          if s.loading then .loading
          else if filtered.length = 0 then
            .empty (if s.filter = "all" then "No todos yet. Add one below!"
              else "No " ++ s.filter ++ " todos.")
          else .items filtered }
  | .error e, _, _ => .error e
  | _, .error e, _ => .error e
  | _, _, _ => .error .typeError

/-- The props `onUpdate={fetchTodos}` and `onDelete={fetchTodos}`: how `TodoApp`
reacts to an effect of one of its items. -/
def TodoApp.onItemEffect (net : Net) (token : JSVal) (s : TodoApp.State) :
    TodoItem.Effect → TodoApp.State
  | .onUpdate => s.run (TodoApp.fetchTodos net token)
  | _ => s

/-- The state of `TodoApp` after the effects of a `TodoItem` handler. -/
def TodoApp.afterItem (net : Net) (token : JSVal) (s : TodoApp.State)
    (es : List TodoItem.Effect) : TodoApp.State :=
  es.foldl (TodoApp.onItemEffect net token) s

/-- The prop `onAdd={fetchTodos}`: how `TodoApp` reacts to an effect of the form. -/
def TodoApp.onFormEffect (net : Net) (token : JSVal) (s : TodoApp.State) :
    AddTodoForm.Effect → TodoApp.State
  | .onAdd => s.run (TodoApp.fetchTodos net token)
  | _ => s

/-- The state of `TodoApp` after the effects of the `AddTodoForm` handler. -/
def TodoApp.afterForm (net : Net) (token : JSVal) (s : TodoApp.State)
    (es : List AddTodoForm.Effect) : TodoApp.State :=
  es.foldl (TodoApp.onFormEffect net token) s

/-- The events that change the state of `TodoApp`: a `fetchTodos` whose request
settled with the outcome `r`, and a click on the filter tab `f`. -/
inductive TodoApp.Action where
  | fetchSettled (r : FetchResult)
  | filterClicked (f : String)

/-- The state of `TodoApp` after one event. -/
def TodoApp.step (token : JSVal) (s : TodoApp.State) : TodoApp.Action → TodoApp.State
  | .fetchSettled r => s.run (TodoApp.fetchTodos (fun _ => r) token)
  | .filterClicked f => TodoApp.setFilter f s

/-- The state of `TodoApp` after a sequence of events. -/
def TodoApp.exec (token : JSVal) (s : TodoApp.State) (as : List TodoApp.Action) :
    TodoApp.State :=
  as.foldl (TodoApp.step token) s

/-! ## The example of the specification -/

/-- The two-item collection of the specification's example. -/
def exampleTodos : List JSVal :=
  [ .obj [("id", .num "1"), ("title", .str "Buy milk"), ("completed", .bool false)],
    .obj [("id", .num "2"), ("title", .str "Pay bills"), ("completed", .bool true)] ]

/-! ## The vocabulary of the specification

The definitions below follow the words of the specification; the theorems
compare them with the definitions above, which follow the source. -/

/-- The data model's `completed` flag of a todo: present when the value has a
property `completed` that is a boolean. -/
def Todo.completed? (t : JSVal) : Option Bool :=
  match t.getProp "completed" with
  | .ok (.bool b) => some b
  | _ => none

/-- A collection of todos of the data model: every item has a boolean
`completed`. -/
def Todo.allTyped (xs : List JSVal) : Prop :=
  ∀ t ∈ xs, (Todo.completed? t).isSome = true

/-- The items of a collection whose `completed` is `b`, in their order. -/
def Spec.withCompleted (b : Bool) (xs : List JSVal) : List JSVal :=
  xs.filter (fun t => Todo.completed? t == some b)

/-- The `id` of a todo object with the given fields. -/
def Todo.idOf (fields : List (String × JSVal)) : JSVal :=
  (fields.lookup "id").getD .undefined

/-- The `completed` value of a todo object with the given fields. -/
def Todo.completedOf (fields : List (String × JSVal)) : JSVal :=
  (fields.lookup "completed").getD .undefined

/-- The collection restricted by a filter: "active" keeps the items with
`completed = false`, "done" those with `completed = true`, "all" every item. -/
def Spec.restrict (filter : String) (xs : List JSVal) : List JSVal :=
  if filter = "active" then Spec.withCompleted false xs
  else if filter = "done" then Spec.withCompleted true xs
  else xs

/-- The collection carried by a list response: the response itself when it is a
bare array, the array under the field `todos` when it is an object wrapping it. -/
def Spec.collection : JSVal → Option (List JSVal)
  | .arr xs => some xs
  | .obj fields =>
    match fields.lookup "todos" with
    | some (.arr xs) => some xs
    | _ => none
  | _ => none

/-- The collection of a successful fetch: the request resolved and its payload
carries a collection.  A failed fetch has none. -/
def Spec.fetched (r : FetchResult) : Option (List JSVal) :=
  match api.settle r with
  | .ok data => Spec.collection data
  | .error _ => none

/-- The collection of the last successful fetch after one more event, given the
one before it. -/
def Spec.track (last : List JSVal) : TodoApp.Action → List JSVal
  | .fetchSettled r => (Spec.fetched r).getD last
  | .filterClicked _ => last

/-- The collection of the last successful fetch of a history, the empty list
before any successful fetch. -/
def Spec.lastCollection (as : List TodoApp.Action) : List JSVal :=
  as.foldl Spec.track []

/-- The events of the external contract: a list request that resolves carries a
collection of todos (a bare array or an array under `todos`), and a filter click
is on one of the three tabs. -/
def TodoApp.Action.wellFormed : TodoApp.Action → Prop
  | .fetchSettled r =>
    ∀ data, api.settle r = .ok data → ∃ xs, Spec.collection data = some xs ∧ Todo.allTyped xs
  | .filterClicked f => f = "all" ∨ f = "active" ∨ f = "done"

/-- The invariant of `TodoApp` along a history: the held list is the collection
`last`, its items are typed, and while `loading` it is empty. -/
def TodoApp.Inv (s : TodoApp.State) (last : List JSVal) : Prop :=
  s.todos = .arr last ∧ Todo.allTyped last ∧ (s.loading = true → last = [])

/-- The stats line for `done` completed items out of `total`. -/
def Spec.statsLine (done total : Nat) : String :=
  toString done ++ " of " ++ toString total ++ " completed"

/-- The items shown in the list area. -/
def TodoApp.ListView.shown : TodoApp.ListView → List JSVal
  | .loading => []
  | .empty _ => []
  | .items todos => todos

/-- The network that answers every request with a success response carrying
`data`. -/
def Net.answering (data : JSVal) : Net :=
  fun _ => .resolved ⟨true, 200, some data⟩

/-- The network that answers every request with the status `status` and the
body `data`, as a non-success response. -/
def Net.refusing (status : Nat) (data : JSVal) : Net :=
  fun _ => .resolved ⟨false, status, some data⟩

/-- The number written by a string of decimal digits, read after the digits
already counted in `acc`. -/
def decimalValue (cs : List Char) (acc : Nat) : Nat :=
  cs.foldl (fun a c => a * 10 + (c.toNat - 48)) acc

/-! ## Auxiliary lemmas -/

theorem arrayFilter_eq_filter (cb : JSVal → Except JSError JSVal) (p : JSVal → Bool)
    (xs : List JSVal) (h : ∀ x ∈ xs, ∃ v, cb x = .ok v ∧ v.truthy = p x) :
    arrayFilter cb xs = .ok (xs.filter p) := by
  induction xs with
  | nil => rfl
  | cons x xs ih =>
    obtain ⟨v, hv, hp⟩ := h x (List.mem_cons_self x xs)
    have ih2 := ih (fun y hy => h y (List.mem_cons_of_mem x hy))
    simp only [arrayFilter, hv, ih2, hp, List.filter_cons]

theorem Todo.completed?_eq_some {t : JSVal} {b : Bool} (h : Todo.completed? t = some b) :
    t.getProp "completed" = .ok (.bool b) := by
  unfold Todo.completed? at h
  split at h
  · next c hc => simp only [Option.some.injEq] at h; rw [hc, h]
  · simp at h

theorem Todo.getProp_completed {t : JSVal} (h : (Todo.completed? t).isSome = true) :
    ∃ b, Todo.completed? t = some b ∧ t.getProp "completed" = .ok (.bool b) := by
  obtain ⟨b, hb⟩ := Option.isSome_iff_exists.mp h
  exact ⟨b, hb, Todo.completed?_eq_some hb⟩

theorem filtered_active (xs : List JSVal) (loading : Bool) (h : Todo.allTyped xs) :
    TodoApp.filtered ⟨.arr xs, loading, "active"⟩ = .ok (Spec.withCompleted false xs) := by
  refine arrayFilter_eq_filter _ _ xs (fun t ht => ?_)
  obtain ⟨b, hb, hg⟩ := Todo.getProp_completed (h t ht)
  refine ⟨.bool (!b), ?_, ?_⟩
  · simp [TodoApp.filterCallback, hg, JSVal.truthy]
  · cases b <;> simp [JSVal.truthy, hb]

theorem filtered_done (xs : List JSVal) (loading : Bool) (h : Todo.allTyped xs) :
    TodoApp.filtered ⟨.arr xs, loading, "done"⟩ = .ok (Spec.withCompleted true xs) := by
  refine arrayFilter_eq_filter _ _ xs (fun t ht => ?_)
  obtain ⟨b, hb, hg⟩ := Todo.getProp_completed (h t ht)
  refine ⟨.bool b, ?_, ?_⟩
  · simp [TodoApp.filterCallback, hg]
  · cases b <;> simp [JSVal.truthy, hb]

theorem filtered_other (xs : List JSVal) (loading : Bool) (filter : String)
    (ha : filter ≠ "active") (hd : filter ≠ "done") :
    TodoApp.filtered ⟨.arr xs, loading, filter⟩ = .ok xs := by
  have := arrayFilter_eq_filter (TodoApp.filterCallback filter) (fun _ => true) xs
    (fun t _ => ⟨.bool true, by simp [TodoApp.filterCallback, ha, hd], rfl⟩)
  simpa [TodoApp.filtered, JSVal.filter] using this

theorem filtered_eq_restrict (xs : List JSVal) (loading : Bool) (filter : String)
    (h : Todo.allTyped xs) :
    TodoApp.filtered ⟨.arr xs, loading, filter⟩ = .ok (Spec.restrict filter xs) := by
  unfold Spec.restrict
  by_cases ha : filter = "active"
  · subst ha; simpa using filtered_active xs loading h
  · by_cases hd : filter = "done"
    · subst hd; simpa using filtered_done xs loading h
    · simpa [ha, hd] using filtered_other xs loading filter ha hd

theorem doneCount_eq (xs : List JSVal) (loading : Bool) (filter : String)
    (h : Todo.allTyped xs) :
    TodoApp.doneCount ⟨.arr xs, loading, filter⟩ = .ok (Spec.withCompleted true xs).length := by
  have : arrayFilter (fun t => t.getProp "completed") xs = .ok (Spec.withCompleted true xs) := by
    refine arrayFilter_eq_filter _ _ xs (fun t ht => ?_)
    obtain ⟨b, hb, hg⟩ := Todo.getProp_completed (h t ht)
    refine ⟨.bool b, hg, ?_⟩
    cases b <;> simp [JSVal.truthy, hb]
  simp [TodoApp.doneCount, JSVal.filter, this]

theorem fetchedTodos_collection {data : JSVal} {xs : List JSVal}
    (h : Spec.collection data = some xs) :
    TodoApp.fetchedTodos (.ok data) = .ok (.arr xs) := by
  cases data with
  | arr ys =>
    simp only [Spec.collection, Option.some.injEq] at h
    simp [TodoApp.fetchedTodos, JSVal.isArray, h]
  | obj fields =>
    simp only [Spec.collection] at h
    split at h
    · next zs hz =>
      simp only [Option.some.injEq] at h
      simp [TodoApp.fetchedTodos, JSVal.isArray, JSVal.getProp, hz, JSVal.or, JSVal.truthy, h]
    · simp at h
  | undefined => simp [Spec.collection] at h
  | null => simp [Spec.collection] at h
  | bool b => simp [Spec.collection] at h
  | num n => simp [Spec.collection] at h
  | str v => simp [Spec.collection] at h

theorem run_fetchTodos_ok (net : Net) (token : JSVal) (s : TodoApp.State) {v : JSVal}
    (h : TodoApp.fetchedTodos (api.getTodos net token).2 = .ok v) :
    s.run (TodoApp.fetchTodos net token) = ⟨v, false, s.filter⟩ := by
  simp [TodoApp.fetchTodos, h, TodoApp.State.run, TodoApp.State.apply]

theorem run_fetchTodos_error (net : Net) (token : JSVal) (s : TodoApp.State) {e : JSError}
    (h : TodoApp.fetchedTodos (api.getTodos net token).2 = .error e) :
    s.run (TodoApp.fetchTodos net token) = ⟨s.todos, false, s.filter⟩ := by
  simp [TodoApp.fetchTodos, h, TodoApp.State.run, TodoApp.State.apply]

theorem getTodos_resolved (net : Net) (token : JSVal) {status : Nat} {data : JSVal}
    (h : net (api.getTodos net token).1 = .resolved ⟨true, status, some data⟩) :
    (api.getTodos net token).2 = .ok data := by
  simp only [api.getTodos, api.request] at h ⊢
  simp [h, api.settle]

theorem render_stats (xs : List JSVal) (loading : Bool) (filter : String)
    (h : Todo.allTyped xs) :
    (TodoApp.render ⟨.arr xs, loading, filter⟩).map (fun v => v.stats)
      = .ok (Spec.statsLine (Spec.withCompleted true xs).length xs.length) := by
  simp only [TodoApp.render, filtered_eq_restrict xs loading filter h,
    doneCount_eq xs loading filter h]
  rfl

theorem Obj.get_nil {α : Type} (k : String) : Obj.get ([] : List (String × α)) k = none := rfl

theorem Obj.get_cons {α : Type} (k0 : String) (v0 : α) (rest : List (String × α)) (k : String) :
    Obj.get ((k0, v0) :: rest) k = if k = k0 then some v0 else Obj.get rest k := by
  by_cases h : k = k0
  · simp [Obj.get, List.lookup, h]
  · have : (k == k0) = false := by simpa using h
    simp [Obj.get, List.lookup, h, this]

theorem Obj.get_set {α : Type} (o : List (String × α)) (k : String) (v : α) (k2 : String) :
    Obj.get (Obj.set o k v) k2 = if k2 = k then some v else Obj.get o k2 := by
  induction o with
  | nil => simp [Obj.set, Obj.get_cons, Obj.get_nil]
  | cons kv rest ih =>
    obtain ⟨k0, v0⟩ := kv
    by_cases h0 : k0 = k
    · subst h0
      simp only [Obj.set, if_true, Obj.get_cons]
      by_cases h2 : k2 = k0 <;> simp [h2]
    · simp only [Obj.set, h0, if_false, Obj.get_cons, ih]
      by_cases h2 : k2 = k0
      · have : k2 ≠ k := fun h => h0 (h2.symm.trans h)
        simp [h2, h0]
      · simp [h2]

theorem Obj.get_eq_none {α : Type} (o : List (String × α)) (k : String)
    (h : k ∉ o.map Prod.fst) : Obj.get o k = none := by
  induction o with
  | nil => rfl
  | cons kv rest ih =>
    obtain ⟨k0, v0⟩ := kv
    simp only [List.map_cons, List.mem_cons, not_or] at h
    rw [Obj.get_cons, if_neg h.1, ih h.2]

theorem Obj.get_spread {α : Type} (base ext : List (String × α)) (k : String)
    (h : (ext.map Prod.fst).Nodup) :
    Obj.get (Obj.spread base ext) k = (Obj.get ext k).orElse (fun _ => Obj.get base k) := by
  induction ext generalizing base with
  | nil => simp [Obj.spread, Obj.get_nil]
  | cons kv rest ih =>
    obtain ⟨k0, v0⟩ := kv
    simp only [List.map_cons, List.nodup_cons] at h
    have ih2 := ih (Obj.set base k0 v0) h.2
    simp only [Obj.spread, List.foldl_cons] at ih2 ⊢
    rw [ih2, Obj.get_set, Obj.get_cons]
    by_cases hk : k = k0
    · subst hk
      simp [Obj.get_eq_none rest k h.1]
    · simp [hk]

theorem api.headers_get (options : Options) (token : JSVal) (name : String)
    (hkeys : ((options.headers.getD []).map Prod.fst).Nodup) :
    Obj.get (api.headers options token) name
      = (match Obj.get (options.headers.getD []) name with
        | some v => some v
        | none =>
          if name = "Authorization" ∧ token.truthy = true then
            some ("Bearer " ++ token.toStr)
          else if name = "Content-Type" then some "application/json"
          else none) := by
  unfold api.headers
  rw [Obj.get_spread _ _ name hkeys]
  cases hext : Obj.get (options.headers.getD []) name with
  | some v => rfl
  | none =>
    simp only [Option.orElse]
    cases ht : token.truthy with
    | true =>
      rw [if_pos rfl, Obj.get_spread _ _ name (by simp), Obj.get_cons, Obj.get_nil,
        Obj.get_cons, Obj.get_nil]
      by_cases h1 : name = "Authorization"
      · simp [h1]
      · simp [h1]
    | false =>
      simp [Obj.spread, Obj.get_cons, Obj.get_nil]

theorem api.headers_token (tok : String) (htok : tok ≠ "") :
    api.headers ⟨none, none, none⟩ (.str tok)
      = [("Content-Type", "application/json"), ("Authorization", "Bearer " ++ tok)] := by
  simp [api.headers, JSVal.truthy, htok, Obj.spread, Obj.set, JSVal.toStr]

theorem digitChar_value (k : Nat) (h : k < 10) : (Nat.digitChar k).toNat - 48 = k := by
  interval_cases k <;> rfl

theorem decimalValue_toDigitsCore (fuel n : Nat) (ds : List Char) (h : n < fuel) :
    decimalValue (Nat.toDigitsCore 10 fuel n ds) 0 = decimalValue ds n := by
  induction fuel generalizing n ds with
  | zero => omega
  | succ fuel ih =>
    simp only [Nat.toDigitsCore]
    split
    · next h0 =>
      have hlt : n < 10 := by omega
      have hn : n % 10 = n := Nat.mod_eq_of_lt hlt
      simp [decimalValue, hn, digitChar_value n hlt]
    · next h0 =>
      rw [ih (n / 10) _ (by omega)]
      simp only [decimalValue, List.foldl_cons,
        digitChar_value (n % 10) (Nat.mod_lt _ (by decide))]
      congr 1
      omega

theorem repr_injective {a b : Nat} (h : Nat.repr a = Nat.repr b) : a = b := by
  have hd : Nat.toDigits 10 a = Nat.toDigits 10 b := by
    have := congrArg String.data h
    simpa [Nat.repr] using this
  have ha := decimalValue_toDigitsCore (a + 1) a [] (by omega)
  have hb := decimalValue_toDigitsCore (b + 1) b [] (by omega)
  simp only [Nat.toDigits] at hd
  rw [hd] at ha
  simp only [decimalValue, List.foldl_nil] at ha hb
  omega

theorem failure_message_injective {a b : Nat}
    (h : "Request failed: " ++ toString a = "Request failed: " ++ toString b) : a = b := by
  have := congrArg String.data h
  simp only [String.data_append, List.append_cancel_left_eq] at this
  exact repr_injective (String.ext this)

theorem api.settle_refused (res : Response) (h : res.ok = false) :
    api.settle (.resolved res)
      = .error (.error ("Request failed: " ++ toString res.status)) := by
  simp [api.settle, h]

theorem api.settle_accepted (res : Response) (v : JSVal) (h : res.ok = true)
    (hv : res.body = some v) : api.settle (.resolved res) = .ok v := by
  simp [api.settle, h, hv]

theorem api.login_failed (net : Net) (username password : String)
    (h : net (api.login net username password).1 = .rejected
      ∨ ∃ res, net (api.login net username password).1 = .resolved res ∧ res.ok = false) :
    ∃ e, (api.login net username password).2 = .error e := by
  simp only [api.login, api.request] at h ⊢
  rcases h with h | ⟨res, h, hok⟩
  · exact ⟨_, by rw [h]; rfl⟩
  · exact ⟨_, by rw [h]; exact api.settle_refused res hok⟩

theorem api.request_resolved (net : Net) (path : String) (options : Options) (token : JSVal)
    (status : Nat) (v : JSVal)
    (h : net (api.request net path options token).1 = .resolved ⟨true, status, some v⟩) :
    (api.request net path options token).2 = .ok v := by
  simp only [api.request] at h ⊢
  rw [h]
  rfl

theorem api.request_failed (net : Net) (path : String) (options : Options) (token : JSVal)
    (h : net (api.request net path options token).1 = .rejected
      ∨ ∃ res, net (api.request net path options token).1 = .resolved res ∧ res.ok = false) :
    ∃ e, (api.request net path options token).2 = .error e := by
  simp only [api.request] at h ⊢
  rcases h with h | ⟨res, h, hok⟩
  · exact ⟨_, by rw [h]; rfl⟩
  · exact ⟨_, by rw [h]; exact api.settle_refused res hok⟩

theorem todos_url_str (fields : List (String × JSVal)) (s : String)
    (h : fields.lookup "id" = some (.str s)) :
    API ++ ("/todos/" ++ (Todo.idOf fields).toStr) = "https://api.todoodoo.com/todos/" ++ s := by
  rw [← String.append_assoc]
  simp only [Todo.idOf, h, Option.getD_some, JSVal.toStr]
  rfl

theorem todos_url_num (fields : List (String × JSVal)) (text : String)
    (h : fields.lookup "id" = some (.num text)) :
    API ++ ("/todos/" ++ (Todo.idOf fields).toStr)
      = "https://api.todoodoo.com/todos/" ++ text := by
  rw [← String.append_assoc]
  simp only [Todo.idOf, h, Option.getD_some, JSVal.toStr]
  rfl

theorem todos_url (id : JSVal) :
    API ++ ("/todos/" ++ id.toStr) = "https://api.todoodoo.com/todos/" ++ id.toStr := by
  rw [← String.append_assoc]
  rfl

theorem Spec.restrict_nil (filter : String) : Spec.restrict filter [] = [] := by
  unfold Spec.restrict Spec.withCompleted
  split
  · rfl
  · split <;> rfl

theorem render_shown (xs : List JSVal) (loading : Bool) (filter : String)
    (h : Todo.allTyped xs) (hl : loading = true → xs = []) :
    (TodoApp.render ⟨.arr xs, loading, filter⟩).map (fun v => v.list.shown)
      = .ok (Spec.restrict filter xs) := by
  simp only [TodoApp.render, filtered_eq_restrict xs loading filter h,
    doneCount_eq xs loading filter h, Except.map]
  cases loading with
  | true => simp [hl rfl, Spec.restrict_nil, TodoApp.ListView.shown]
  | false =>
    by_cases hlen : (Spec.restrict filter xs).length = 0
    · simp [hlen, TodoApp.ListView.shown, List.length_eq_zero.mp hlen]
    · simp [hlen, TodoApp.ListView.shown]

theorem step_fetch_error (token : JSVal) (s : TodoApp.State) (r : FetchResult) (e : JSError)
    (h : api.settle r = .error e) :
    TodoApp.step token s (.fetchSettled r) = ⟨s.todos, false, s.filter⟩ :=
  run_fetchTodos_error (fun _ => r) token s
    (show TodoApp.fetchedTodos (api.settle r) = .error e by rw [h]; rfl)

theorem step_fetch_ok (token : JSVal) (s : TodoApp.State) (r : FetchResult) (data : JSVal)
    (xs : List JSVal) (h : api.settle r = .ok data) (hc : Spec.collection data = some xs) :
    TodoApp.step token s (.fetchSettled r) = ⟨.arr xs, false, s.filter⟩ :=
  run_fetchTodos_ok (fun _ => r) token s
    (show TodoApp.fetchedTodos (api.settle r) = .ok (.arr xs) by
      rw [h]; exact fetchedTodos_collection hc)

theorem Inv_step (token : JSVal) (s : TodoApp.State) (last : List JSVal)
    (a : TodoApp.Action) (hw : a.wellFormed) (hinv : TodoApp.Inv s last) :
    TodoApp.Inv (TodoApp.step token s a) (Spec.track last a) := by
  obtain ⟨ht, hty, _⟩ := hinv
  cases a with
  | filterClicked f => exact ⟨ht, hty, by assumption⟩
  | fetchSettled r =>
    cases hr : api.settle r with
    | error e =>
      rw [step_fetch_error token s r e hr]
      have : Spec.track last (.fetchSettled r) = last := by
        simp [Spec.track, Spec.fetched, hr]
      rw [this]
      exact ⟨ht, hty, fun hl => by cases hl⟩
    | ok data =>
      obtain ⟨xs, hc, hxs⟩ := hw data hr
      rw [step_fetch_ok token s r data xs hr hc]
      have : Spec.track last (.fetchSettled r) = xs := by
        simp [Spec.track, Spec.fetched, hr, hc]
      rw [this]
      exact ⟨rfl, hxs, fun hl => by cases hl⟩

theorem Inv_exec (token : JSVal) (as : List TodoApp.Action) (s : TodoApp.State)
    (last : List JSVal) (hw : ∀ a ∈ as, a.wellFormed) (hinv : TodoApp.Inv s last) :
    TodoApp.Inv (TodoApp.exec token s as) (as.foldl Spec.track last) := by
  induction as generalizing s last with
  | nil => exact hinv
  | cons a rest ih =>
    exact ih (TodoApp.step token s a) (Spec.track last a)
      (fun b hb => hw b (List.mem_cons_of_mem a hb))
      (Inv_step token s last a (hw a (List.mem_cons_self a rest)) hinv)

/-! ## The filter and the stats line -/

/-- C1: for every todo list held by `TodoApp` (items with a boolean `completed`),
`filtered` under filter "active" is exactly the todos whose `completed` is false,
under "done" exactly those whose `completed` is true, and under "all" the whole
list; each result is the original list filtered in place, so order and
multiplicity are kept. -/
theorem filtered_matches_filter (todos : List JSVal) (loading : Bool)
    (h : Todo.allTyped todos) :
    TodoApp.filtered ⟨.arr todos, loading, "active"⟩
        = .ok (todos.filter (fun t => Todo.completed? t == some false))
      ∧ TodoApp.filtered ⟨.arr todos, loading, "done"⟩
        = .ok (todos.filter (fun t => Todo.completed? t == some true))
      ∧ TodoApp.filtered ⟨.arr todos, loading, "all"⟩ = .ok todos :=
  ⟨filtered_active todos loading h, filtered_done todos loading h,
    filtered_other todos loading "all" (by decide) (by decide)⟩

/-- The example of the specification: the two-item collection under filter
"done" renders exactly the item "Pay bills". -/
theorem filtered_matches_filter_witness :
    Todo.allTyped exampleTodos
      ∧ TodoApp.filtered ⟨.arr exampleTodos, false, "done"⟩
        = .ok [.obj [("id", .num "2"), ("title", .str "Pay bills"), ("completed", .bool true)]] :=
  ⟨by unfold Todo.allTyped; decide,
    (filtered_matches_filter exampleTodos false (by unfold Todo.allTyped; decide)).2.1⟩

/-- C2: for every successful list response, a bare array of todos or an object
wrapping the array under `todos`, after `fetchTodos` the value `doneCount` is the
number of todos of the returned collection with `completed = true` and the stats
line reads that number "of" the length of the collection "completed", whatever
the filter is at the time of the fetch or is set to afterwards. -/
theorem stats_after_fetch (net : Net) (token : JSVal) (s : TodoApp.State) (status : Nat)
    (data : JSVal) (xs : List JSVal)
    (hnet : net (api.getTodos net token).1 = .resolved ⟨true, status, some data⟩)
    (hdata : Spec.collection data = some xs) (hxs : Todo.allTyped xs) :
    TodoApp.doneCount (s.run (TodoApp.fetchTodos net token))
        = .ok (xs.countP (fun t => Todo.completed? t == some true))
      ∧ (TodoApp.render (s.run (TodoApp.fetchTodos net token))).map (fun v => v.stats)
        = .ok (toString (xs.countP (fun t => Todo.completed? t == some true))
            ++ " of " ++ toString xs.length ++ " completed")
      ∧ ∀ f : String,
        (TodoApp.render (TodoApp.setFilter f (s.run (TodoApp.fetchTodos net token)))).map
            (fun v => v.stats)
          = .ok (toString (xs.countP (fun t => Todo.completed? t == some true))
            ++ " of " ++ toString xs.length ++ " completed") := by
  have hrun : s.run (TodoApp.fetchTodos net token) = ⟨.arr xs, false, s.filter⟩ :=
    run_fetchTodos_ok net token s
      (by rw [getTodos_resolved net token hnet]; exact fetchedTodos_collection hdata)
  rw [hrun, List.countP_eq_length_filter]
  exact ⟨doneCount_eq xs false s.filter hxs, render_stats xs false s.filter hxs,
    fun f => render_stats xs false f hxs⟩

/-- The example of the specification, in both forms of the response: the
two-item collection gives the stats line "1 of 2 completed". -/
theorem stats_after_fetch_witness :
    (TodoApp.render (TodoApp.init.run
        (TodoApp.fetchTodos (Net.answering (.arr exampleTodos)) (.str "abc")))).map
          (fun v => v.stats) = .ok "1 of 2 completed"
      ∧ (TodoApp.render (TodoApp.init.run
        (TodoApp.fetchTodos (Net.answering (.obj [("todos", .arr exampleTodos)]))
          (.str "abc")))).map (fun v => v.stats) = .ok "1 of 2 completed" :=
  ⟨(stats_after_fetch (Net.answering (.arr exampleTodos)) (.str "abc") TodoApp.init 200
      (.arr exampleTodos) exampleTodos rfl rfl (by unfold Todo.allTyped; decide)).2.1,
    (stats_after_fetch (Net.answering (.obj [("todos", .arr exampleTodos)])) (.str "abc")
      TodoApp.init 200 (.obj [("todos", .arr exampleTodos)]) exampleTodos rfl rfl
      (by unfold Todo.allTyped; decide)).2.1⟩

/-! ## The API client -/

/-- C3: for every path, options and token, each header `api.request` sends is
the caller's `options.headers` entry of that name when there is one, otherwise
`Authorization: "Bearer " + token` when a token is given, otherwise the default
`Content-Type: application/json`, and nothing else; `api.login` sends exactly
`Content-Type: application/x-www-form-urlencoded` (no `Authorization`), and
`getTodos`, `createTodo`, `updateTodo` and `deleteTodo` with a non-empty token
send exactly `Content-Type: application/json` and `Authorization: Bearer <token>`. -/
theorem request_headers_merge (net : Net) (path : String) (options : Options) (token : JSVal)
    (name username password tok : String) (title date id completed : JSVal)
    (hkeys : ((options.headers.getD []).map Prod.fst).Nodup) (htok : tok ≠ "") :
    Obj.get (api.request net path options token).1.headers name
        = (match Obj.get (options.headers.getD []) name with
          | some v => some v
          | none =>
            if name = "Authorization" ∧ token.truthy = true then
              some ("Bearer " ++ token.toStr)
            else if name = "Content-Type" then some "application/json"
            else none)
      ∧ (api.login net username password).1.headers
        = [("Content-Type", "application/x-www-form-urlencoded")]
      ∧ (api.getTodos net (.str tok)).1.headers
        = [("Content-Type", "application/json"), ("Authorization", "Bearer " ++ tok)]
      ∧ (api.createTodo net (.str tok) title date).1.headers
        = [("Content-Type", "application/json"), ("Authorization", "Bearer " ++ tok)]
      ∧ (api.updateTodo net (.str tok) id completed).1.headers
        = [("Content-Type", "application/json"), ("Authorization", "Bearer " ++ tok)]
      ∧ (api.deleteTodo net (.str tok) id).1.headers
        = [("Content-Type", "application/json"), ("Authorization", "Bearer " ++ tok)] :=
  ⟨api.headers_get options token name hkeys, rfl, api.headers_token tok htok,
    api.headers_token tok htok, api.headers_token tok htok, api.headers_token tok htok⟩

/-- A caller that overrides `Content-Type` and adds `Accept`, with the token
"abc": the override wins, the bearer header and the added header are both sent. -/
theorem request_headers_merge_witness :
    Obj.get (api.request (Net.answering .null) "/todos"
        ⟨none, none, some [("Content-Type", "text/plain"), ("Accept", "text/html")]⟩
        (.str "abc")).1.headers "Content-Type" = some "text/plain"
      ∧ (api.getTodos (Net.answering .null) (.str "abc")).1.headers
        = [("Content-Type", "application/json"), ("Authorization", "Bearer abc")] :=
  have h := request_headers_merge (Net.answering .null) "/todos"
    ⟨none, none, some [("Content-Type", "text/plain"), ("Accept", "text/html")]⟩ (.str "abc")
    "Content-Type" "alice" "secret" "abc" (.str "Buy milk") (.str "2024-05-01") (.num "1")
    (.bool true) (by decide) (by decide)
  ⟨h.1, h.2.2.1⟩

/-- C4, as stated, fails: a 401 and a 500 with the same body make `api.request`
fail with different errors, "Request failed: 401" and "Request failed: 500". -/
theorem request_error_shows_status :
    (api.request (Net.refusing 401 .null) "/todos" Options.empty (.str "abc")).2
        = .error (.error "Request failed: 401")
      ∧ (api.request (Net.refusing 500 .null) "/todos" Options.empty (.str "abc")).2
        = .error (.error "Request failed: 500")
      ∧ (api.request (Net.refusing 401 .null) "/todos" Options.empty (.str "abc")).2
        ≠ (api.request (Net.refusing 500 .null) "/todos" Options.empty (.str "abc")).2 := by
  refine ⟨rfl, rfl, ?_⟩
  intro h
  have hmsg : "Request failed: 401" = "Request failed: 500" := by
    injection h with h
    injection h
  exact absurd hmsg (by decide)

/-- C4, amended: for every two non-success responses with any status codes and
any bodies, `api.request` fails with the `Error` whose message is
"Request failed: " followed by the status code, so the error does not depend on
the body and the two errors are the same exactly when the two status codes are
equal; and given a response with a parseable body, `api.request` fails if and
only if the response is non-success, and otherwise returns the parsed body. -/
theorem request_failure_uniform_in_body (net1 net2 : Net) (path : String) (options : Options)
    (token : JSVal) (res1 res2 : Response)
    (h1 : net1 (api.request net1 path options token).1 = .resolved res1)
    (h2 : net2 (api.request net2 path options token).1 = .resolved res2) :
    (res1.ok = false → res2.ok = false →
        (api.request net1 path options token).2
            = .error (.error ("Request failed: " ++ toString res1.status))
          ∧ ((api.request net1 path options token).2 = (api.request net2 path options token).2
            ↔ res1.status = res2.status))
      ∧ ∀ v, res1.body = some v →
        ((∃ e, (api.request net1 path options token).2 = .error e) ↔ res1.ok = false)
          ∧ (res1.ok = true → (api.request net1 path options token).2 = .ok v) := by
  simp only [api.request] at h1 h2 ⊢
  rw [h1, h2]
  refine ⟨fun hok1 hok2 => ?_, fun v hv => ⟨⟨fun ⟨e, he⟩ => ?_, fun hok => ?_⟩, fun hok => ?_⟩⟩
  · rw [api.settle_refused res1 hok1, api.settle_refused res2 hok2]
    refine ⟨rfl, fun h => ?_, fun h => by rw [h]⟩
    injection h with h
    injection h with h
    exact failure_message_injective h
  · cases hok : res1.ok with
    | false => rfl
    | true => rw [api.settle_accepted res1 v hok hv] at he; cases he
  · exact ⟨_, api.settle_refused res1 hok⟩
  · exact api.settle_accepted res1 v hok hv

/-- Two 401 responses with different bodies fail with the same error, and a
success response returns its body. -/
theorem request_failure_uniform_in_body_witness :
    (api.request (Net.refusing 401 .null) "/todos" Options.empty (.str "abc")).2
        = (api.request (Net.refusing 401 (.str "denied")) "/todos" Options.empty (.str "abc")).2
      ∧ (api.request (Net.answering (.arr [])) "/todos" Options.empty (.str "abc")).2
        = .ok (.arr []) :=
  ⟨((request_failure_uniform_in_body (Net.refusing 401 .null) (Net.refusing 401 (.str "denied"))
      "/todos" Options.empty (.str "abc") ⟨false, 401, some .null⟩
      ⟨false, 401, some (.str "denied")⟩ rfl rfl).1 rfl rfl).2.mpr rfl,
    ((request_failure_uniform_in_body (Net.answering (.arr [])) (Net.answering (.arr []))
      "/todos" Options.empty (.str "abc") ⟨true, 200, some (.arr [])⟩
      ⟨true, 200, some (.arr [])⟩ rfl rfl).2 (.arr []) rfl).2 rfl⟩

/-! ## Login -/

/-- C5, as stated, fails: when the login request succeeds with a response that
holds no token (the object `{}`), `handleSubmit` calls `onLogin(undefined)`, the
root stores `undefined` and `App` still renders the login view, with no error
message; the same happens when `token` is the empty string and there is no
`access_token`. -/
theorem login_without_token_stays :
    (api.login (Net.answering (.obj [])) "alice" "secret").2 = .ok (.obj [])
      ∧ LoginScreen.handleSubmit (Net.answering (.obj [])) ⟨"alice", "secret", "", false⟩
        = [.setLoading true, .setError "",
            .fetch (api.login (Net.answering (.obj [])) "alice" "secret").1,
            .onLogin .undefined, .setLoading false]
      ∧ App.render (App.afterLogin App.init
          (LoginScreen.handleSubmit (Net.answering (.obj [])) ⟨"alice", "secret", "", false⟩))
        = .loginScreen
      ∧ (LoginScreen.State.run ⟨"alice", "secret", "", false⟩
          (LoginScreen.handleSubmit (Net.answering (.obj []))
            ⟨"alice", "secret", "", false⟩)).error = ""
      ∧ App.render (App.afterLogin App.init
          (LoginScreen.handleSubmit (Net.answering (.obj [("token", .str "")]))
            ⟨"alice", "secret", "", false⟩))
        = .loginScreen :=
  ⟨rfl, rfl, rfl, rfl, rfl⟩

/-- C5, amended: for every non-empty username and password and every successful
login response whose `token` field or, failing that, whose `access_token` field
holds a truthy value (a non-empty token), `handleSubmit` hands that value to the
root, the root stores it, `App` then renders the list view with it, no error
message is set and `loading` ends false. -/
theorem login_success_shows_list (net : Net) (s : LoginScreen.State) (root : App.State)
    (status : Nat) (fields : List (String × JSVal)) (tok : JSVal)
    (hu : s.username ≠ "") (hp : s.password ≠ "")
    (hnet : net (api.login net s.username s.password).1
      = .resolved ⟨true, status, some (.obj fields)⟩)
    (htok : ((fields.lookup "token").getD .undefined).or
      ((fields.lookup "access_token").getD .undefined) = tok)
    (hne : tok.truthy = true) :
    LoginScreen.handleSubmit net s
        = [.setLoading true, .setError "", .fetch (api.login net s.username s.password).1,
            .onLogin tok, .setLoading false]
      ∧ App.afterLogin root (LoginScreen.handleSubmit net s) = ⟨tok⟩
      ∧ App.render (App.afterLogin root (LoginScreen.handleSubmit net s)) = .todoApp tok
      ∧ (s.run (LoginScreen.handleSubmit net s)).error = ""
      ∧ (s.run (LoginScreen.handleSubmit net s)).loading = false := by
  have hres : (api.login net s.username s.password).2 = .ok (.obj fields) := by
    simp only [api.login, api.request] at hnet ⊢
    rw [hnet]; rfl
  have htoken : LoginScreen.loginToken (.ok (.obj fields)) = .ok tok := by
    simp only [LoginScreen.loginToken, JSVal.getProp]
    simp only [JSVal.or] at htok
    split
    · next ht => rw [if_pos ht] at htok; rw [htok]
    · next ht => rw [if_neg ht] at htok; rw [htok]
  have hrun : LoginScreen.handleSubmit net s
      = [.setLoading true, .setError "", .fetch (api.login net s.username s.password).1,
          .onLogin tok, .setLoading false] := by
    simp [LoginScreen.handleSubmit, hu, hp, hres, htoken]
  rw [hrun]
  simp [App.afterLogin, App.onLoginEffect, App.handleLogin, App.render, hne,
    LoginScreen.State.run, LoginScreen.State.apply]

/-- A login answered with `{"access_token": "abc"}`: the list view is shown with
the token "abc". -/
theorem login_success_shows_list_witness :
    App.render (App.afterLogin App.init
        (LoginScreen.handleSubmit (Net.answering (.obj [("access_token", .str "abc")]))
          ⟨"alice", "secret", "", false⟩))
      = .todoApp (.str "abc") :=
  (login_success_shows_list (Net.answering (.obj [("access_token", .str "abc")]))
    ⟨"alice", "secret", "", false⟩ App.init 200 [("access_token", .str "abc")] (.str "abc")
    (by decide) (by decide) rfl rfl rfl).2.2.1

/-- C6: for every non-empty username and password, when the login request fails
(no response, or a non-success status) `handleSubmit` sets the error to
"Invalid credentials. Please try again.", never calls `onLogin`, so the root's
state is unchanged and a root without a token still shows the login view, and
ends with `loading = false`; with an empty username or an empty password it
issues no request and changes no state. -/
theorem login_failure_shows_error (net : Net) (s : LoginScreen.State) (root : App.State) :
    (s.username ≠ "" → s.password ≠ "" →
        (net (api.login net s.username s.password).1 = .rejected
          ∨ ∃ res, net (api.login net s.username s.password).1 = .resolved res
            ∧ res.ok = false) →
        LoginScreen.handleSubmit net s
            = [.setLoading true, .setError "",
                .fetch (api.login net s.username s.password).1,
                .setError "Invalid credentials. Please try again.", .setLoading false]
          ∧ (s.run (LoginScreen.handleSubmit net s)).error
            = "Invalid credentials. Please try again."
          ∧ (s.run (LoginScreen.handleSubmit net s)).loading = false
          ∧ App.afterLogin root (LoginScreen.handleSubmit net s) = root
          ∧ App.render (App.afterLogin App.init (LoginScreen.handleSubmit net s))
            = .loginScreen)
      ∧ (s.username = "" ∨ s.password = "" →
        LoginScreen.handleSubmit net s = []
          ∧ s.run (LoginScreen.handleSubmit net s) = s
          ∧ App.afterLogin root (LoginScreen.handleSubmit net s) = root) := by
  constructor
  · intro hu hp hfail
    obtain ⟨e, he⟩ := api.login_failed net s.username s.password hfail
    have hrun : LoginScreen.handleSubmit net s
        = [.setLoading true, .setError "", .fetch (api.login net s.username s.password).1,
            .setError "Invalid credentials. Please try again.", .setLoading false] := by
      simp [LoginScreen.handleSubmit, hu, hp, he, LoginScreen.loginToken]
    rw [hrun]
    simp [App.afterLogin, App.onLoginEffect, App.render, App.init, JSVal.truthy,
      LoginScreen.State.run, LoginScreen.State.apply]
  · intro hempty
    have hrun : LoginScreen.handleSubmit net s = [] := by
      simp only [LoginScreen.handleSubmit, if_pos hempty]
    rw [hrun]
    exact ⟨rfl, rfl, rfl⟩

/-- A login refused with status 401 shows the error and keeps the login view;
a submit with an empty password does nothing. -/
theorem login_failure_shows_error_witness :
    (LoginScreen.State.run ⟨"alice", "wrong", "", false⟩
        (LoginScreen.handleSubmit (Net.refusing 401 .null)
          ⟨"alice", "wrong", "", false⟩)).error = "Invalid credentials. Please try again."
      ∧ LoginScreen.handleSubmit (Net.refusing 401 .null) ⟨"alice", "", "", false⟩ = [] :=
  ⟨((login_failure_shows_error (Net.refusing 401 .null) ⟨"alice", "wrong", "", false⟩
      App.init).1 (by decide) (by decide) (Or.inr ⟨⟨false, 401, some .null⟩, rfl, rfl⟩)).2.1,
    ((login_failure_shows_error (Net.refusing 401 .null) ⟨"alice", "", "", false⟩
      App.init).2 (Or.inr rfl)).1⟩

/-! ## Mutations -/

/-- C7: when the title or the date is empty, `AddTodoForm.handleSubmit` issues no
request, does not call `onAdd` and leaves the form state unchanged; when both are
non-empty it issues exactly one `POST /todos` with body `{title, date}`, then on
success clears title and date, closes the form and calls `onAdd` once (one
re-fetch), on failure keeps title, date and `open` and triggers no re-fetch, and
in both cases ends with `loading = false`. -/
theorem add_todo_submit (net : Net) (token : JSVal) (s : AddTodoForm.State)
    (app : TodoApp.State) :
    (s.title = "" ∨ s.date = "" →
        AddTodoForm.handleSubmit net token s = []
          ∧ s.run (AddTodoForm.handleSubmit net token s) = s
          ∧ TodoApp.afterForm net token app (AddTodoForm.handleSubmit net token s) = app)
      ∧ (s.title ≠ "" → s.date ≠ "" →
        (api.createTodo net token (.str s.title) (.str s.date)).1.url
            = "https://api.todoodoo.com/todos"
          ∧ (api.createTodo net token (.str s.title) (.str s.date)).1.method = some "POST"
          ∧ (api.createTodo net token (.str s.title) (.str s.date)).1.body
            = some (.json (.obj [("title", .str s.title), ("date", .str s.date)]))
          ∧ (∀ v, (api.createTodo net token (.str s.title) (.str s.date)).2 = .ok v →
            AddTodoForm.handleSubmit net token s
                = [.setLoading true,
                    .fetch (api.createTodo net token (.str s.title) (.str s.date)).1,
                    .setTitle "", .setDate "", .setOpen false, .onAdd, .setLoading false]
              ∧ s.run (AddTodoForm.handleSubmit net token s) = ⟨"", "", false, false⟩
              ∧ TodoApp.afterForm net token app (AddTodoForm.handleSubmit net token s)
                = app.run (TodoApp.fetchTodos net token))
          ∧ (∀ e, (api.createTodo net token (.str s.title) (.str s.date)).2 = .error e →
            AddTodoForm.handleSubmit net token s
                = [.setLoading true,
                    .fetch (api.createTodo net token (.str s.title) (.str s.date)).1,
                    .setLoading false]
              ∧ s.run (AddTodoForm.handleSubmit net token s)
                = ⟨s.title, s.date, false, s.isOpen⟩
              ∧ TodoApp.afterForm net token app (AddTodoForm.handleSubmit net token s)
                = app)) := by
  constructor
  · intro hempty
    have hrun : AddTodoForm.handleSubmit net token s = [] := by
      simp only [AddTodoForm.handleSubmit, if_pos hempty]
    rw [hrun]
    exact ⟨rfl, rfl, rfl⟩
  · intro ht hd
    refine ⟨rfl, rfl, rfl, fun v hv => ?_, fun e he => ?_⟩
    · have hrun : AddTodoForm.handleSubmit net token s
          = [.setLoading true,
              .fetch (api.createTodo net token (.str s.title) (.str s.date)).1,
              .setTitle "", .setDate "", .setOpen false, .onAdd, .setLoading false] := by
        simp [AddTodoForm.handleSubmit, ht, hd, hv]
      rw [hrun]
      exact ⟨rfl, rfl, rfl⟩
    · have hrun : AddTodoForm.handleSubmit net token s
          = [.setLoading true,
              .fetch (api.createTodo net token (.str s.title) (.str s.date)).1,
              .setLoading false] := by
        simp [AddTodoForm.handleSubmit, ht, hd, he]
      rw [hrun]
      exact ⟨rfl, rfl, rfl⟩

/-- A filled form submitted to a server that accepts it ends cleared and
closed; a form without a date issues nothing. -/
theorem add_todo_submit_witness :
    AddTodoForm.State.run ⟨"Buy milk", "2024-05-01", false, true⟩
        (AddTodoForm.handleSubmit (Net.answering (.obj [])) (.str "abc")
          ⟨"Buy milk", "2024-05-01", false, true⟩) = ⟨"", "", false, false⟩
      ∧ AddTodoForm.handleSubmit (Net.answering (.obj [])) (.str "abc")
          ⟨"Buy milk", "", false, true⟩ = [] :=
  ⟨(((add_todo_submit (Net.answering (.obj [])) (.str "abc")
      ⟨"Buy milk", "2024-05-01", false, true⟩ TodoApp.init).2 (by decide) (by decide)).2.2.2.1
        (.obj []) rfl).2.1,
    ((add_todo_submit (Net.answering (.obj [])) (.str "abc") ⟨"Buy milk", "", false, true⟩
      TodoApp.init).1 (Or.inr rfl)).1⟩

/-- C8: for every todo, `TodoItem.handleToggle` issues exactly one
`PUT /todos/{id}` for that todo's id (the id's own text, for a string id and for a
numeric id) whose body is `{completed: b}` with `b` the negation of the todo's
current `completed` value; if the request succeeds (the awaited call resolves, as
it does on a success response with a JSON body) it calls `onUpdate` exactly once,
which is one re-fetch of the list; if it fails (the call rejects, as it does when
no response arrives or the status is non-success) it calls nothing further and
the list is not re-fetched. -/
theorem toggle_issues_put (net : Net) (token : JSVal) (fields : List (String × JSVal))
    (app : TodoApp.State) :
    (api.updateTodo net token (Todo.idOf fields)
          (.bool (!(Todo.completedOf fields).truthy))).1.url
        = "https://api.todoodoo.com/todos/" ++ (Todo.idOf fields).toStr
      ∧ (∀ s, fields.lookup "id" = some (.str s) →
        (api.updateTodo net token (Todo.idOf fields)
            (.bool (!(Todo.completedOf fields).truthy))).1.url
          = "https://api.todoodoo.com/todos/" ++ s)
      ∧ (∀ text, fields.lookup "id" = some (.num text) →
        (api.updateTodo net token (Todo.idOf fields)
            (.bool (!(Todo.completedOf fields).truthy))).1.url
          = "https://api.todoodoo.com/todos/" ++ text)
      ∧ (api.updateTodo net token (Todo.idOf fields)
          (.bool (!(Todo.completedOf fields).truthy))).1.method = some "PUT"
      ∧ (api.updateTodo net token (Todo.idOf fields)
          (.bool (!(Todo.completedOf fields).truthy))).1.body
        = some (.json (.obj [("completed", .bool (!(Todo.completedOf fields).truthy))]))
      ∧ (∀ b, fields.lookup "completed" = some (.bool b) →
        (api.updateTodo net token (Todo.idOf fields)
            (.bool (!(Todo.completedOf fields).truthy))).1.body
          = some (.json (.obj [("completed", .bool (!b))])))
      ∧ (∀ v, (api.updateTodo net token (Todo.idOf fields)
            (.bool (!(Todo.completedOf fields).truthy))).2 = .ok v →
        TodoItem.handleToggle net token (.obj fields)
            = [.fetch (api.updateTodo net token (Todo.idOf fields)
                (.bool (!(Todo.completedOf fields).truthy))).1, .onUpdate]
          ∧ TodoApp.afterItem net token app (TodoItem.handleToggle net token (.obj fields))
            = app.run (TodoApp.fetchTodos net token))
      ∧ (∀ e, (api.updateTodo net token (Todo.idOf fields)
            (.bool (!(Todo.completedOf fields).truthy))).2 = .error e →
        TodoItem.handleToggle net token (.obj fields)
            = [.fetch (api.updateTodo net token (Todo.idOf fields)
                (.bool (!(Todo.completedOf fields).truthy))).1]
          ∧ TodoApp.afterItem net token app (TodoItem.handleToggle net token (.obj fields))
            = app)
      ∧ (∀ status v, net (api.updateTodo net token (Todo.idOf fields)
            (.bool (!(Todo.completedOf fields).truthy))).1
            = .resolved ⟨true, status, some v⟩ →
        TodoItem.handleToggle net token (.obj fields)
            = [.fetch (api.updateTodo net token (Todo.idOf fields)
                (.bool (!(Todo.completedOf fields).truthy))).1, .onUpdate]
          ∧ TodoApp.afterItem net token app (TodoItem.handleToggle net token (.obj fields))
            = app.run (TodoApp.fetchTodos net token))
      ∧ ((net (api.updateTodo net token (Todo.idOf fields)
              (.bool (!(Todo.completedOf fields).truthy))).1 = .rejected
            ∨ ∃ res, net (api.updateTodo net token (Todo.idOf fields)
                (.bool (!(Todo.completedOf fields).truthy))).1 = .resolved res
              ∧ res.ok = false) →
        TodoItem.handleToggle net token (.obj fields)
            = [.fetch (api.updateTodo net token (Todo.idOf fields)
                (.bool (!(Todo.completedOf fields).truthy))).1]
          ∧ TodoApp.afterItem net token app (TodoItem.handleToggle net token (.obj fields))
            = app) := by
  have hok : ∀ v, (api.updateTodo net token (Todo.idOf fields)
        (.bool (!(Todo.completedOf fields).truthy))).2 = .ok v →
      TodoItem.handleToggle net token (.obj fields)
          = [.fetch (api.updateTodo net token (Todo.idOf fields)
              (.bool (!(Todo.completedOf fields).truthy))).1, .onUpdate]
        ∧ TodoApp.afterItem net token app (TodoItem.handleToggle net token (.obj fields))
          = app.run (TodoApp.fetchTodos net token) := by
    intro v hv
    have hrun : TodoItem.handleToggle net token (.obj fields)
        = [.fetch (api.updateTodo net token (Todo.idOf fields)
            (.bool (!(Todo.completedOf fields).truthy))).1, .onUpdate] := by
      simp only [Todo.idOf, Todo.completedOf] at hv ⊢
      simp [TodoItem.handleToggle, JSVal.getProp, hv]
    rw [hrun]
    exact ⟨rfl, rfl⟩
  have herr : ∀ e, (api.updateTodo net token (Todo.idOf fields)
        (.bool (!(Todo.completedOf fields).truthy))).2 = .error e →
      TodoItem.handleToggle net token (.obj fields)
          = [.fetch (api.updateTodo net token (Todo.idOf fields)
              (.bool (!(Todo.completedOf fields).truthy))).1]
        ∧ TodoApp.afterItem net token app (TodoItem.handleToggle net token (.obj fields))
          = app := by
    intro e he
    have hrun : TodoItem.handleToggle net token (.obj fields)
        = [.fetch (api.updateTodo net token (Todo.idOf fields)
            (.bool (!(Todo.completedOf fields).truthy))).1] := by
      simp only [Todo.idOf, Todo.completedOf] at he ⊢
      simp [TodoItem.handleToggle, JSVal.getProp, he]
    rw [hrun]
    exact ⟨rfl, rfl⟩
  refine ⟨todos_url _, fun s hs => todos_url_str fields s hs,
    fun text ht => todos_url_num fields text ht, rfl, rfl, fun b hb => ?_, hok, herr,
    fun status v hnet => hok v (api.request_resolved net _ _ token status v hnet),
    fun hfail => ?_⟩
  · show some (Body.json (.obj [("completed", .bool (!(Todo.completedOf fields).truthy))]))
      = some (.json (.obj [("completed", .bool (!b))]))
    simp [Todo.completedOf, hb, JSVal.truthy]
  · obtain ⟨e, he⟩ := api.request_failed net _ _ token hfail
    exact herr e he

/-- C9: for every todo, `TodoItem.handleDelete` first sets `deleting = true` and
issues exactly one `DELETE /todos/{id}` for that todo's id (the id's own text, for
a string id and for a numeric id), without a body; if the request succeeds (the
awaited call resolves, as it does on a success response with a JSON body) it
calls `onUpdate` exactly once, which is one re-fetch of the list; if it fails
(the call rejects, as it does when no response arrives or the status is
non-success) it sets `deleting` back to false, triggers no re-fetch, and the
state of `TodoApp`, hence its todo list and what it lists, is unchanged. -/
theorem delete_issues_delete (net : Net) (token : JSVal) (fields : List (String × JSVal))
    (item : TodoItem.State) (app : TodoApp.State) :
    (api.deleteTodo net token (Todo.idOf fields)).1.url
        = "https://api.todoodoo.com/todos/" ++ (Todo.idOf fields).toStr
      ∧ (∀ s, fields.lookup "id" = some (.str s) →
        (api.deleteTodo net token (Todo.idOf fields)).1.url
          = "https://api.todoodoo.com/todos/" ++ s)
      ∧ (∀ text, fields.lookup "id" = some (.num text) →
        (api.deleteTodo net token (Todo.idOf fields)).1.url
          = "https://api.todoodoo.com/todos/" ++ text)
      ∧ (api.deleteTodo net token (Todo.idOf fields)).1.method = some "DELETE"
      ∧ (api.deleteTodo net token (Todo.idOf fields)).1.body = none
      ∧ (∀ v, (api.deleteTodo net token (Todo.idOf fields)).2 = .ok v →
        TodoItem.handleDelete net token (.obj fields)
            = [.setDeleting true, .fetch (api.deleteTodo net token (Todo.idOf fields)).1,
                .onUpdate]
          ∧ (item.run (TodoItem.handleDelete net token (.obj fields))).deleting = true
          ∧ TodoApp.afterItem net token app (TodoItem.handleDelete net token (.obj fields))
            = app.run (TodoApp.fetchTodos net token))
      ∧ (∀ e, (api.deleteTodo net token (Todo.idOf fields)).2 = .error e →
        TodoItem.handleDelete net token (.obj fields)
            = [.setDeleting true, .fetch (api.deleteTodo net token (Todo.idOf fields)).1,
                .setDeleting false]
          ∧ (item.run (TodoItem.handleDelete net token (.obj fields))).deleting = false
          ∧ TodoApp.afterItem net token app (TodoItem.handleDelete net token (.obj fields))
            = app
          ∧ (TodoApp.afterItem net token app
              (TodoItem.handleDelete net token (.obj fields))).todos = app.todos
          ∧ TodoApp.filtered (TodoApp.afterItem net token app
              (TodoItem.handleDelete net token (.obj fields))) = TodoApp.filtered app)
      ∧ (∀ status v, net (api.deleteTodo net token (Todo.idOf fields)).1
            = .resolved ⟨true, status, some v⟩ →
        TodoItem.handleDelete net token (.obj fields)
            = [.setDeleting true, .fetch (api.deleteTodo net token (Todo.idOf fields)).1,
                .onUpdate]
          ∧ (item.run (TodoItem.handleDelete net token (.obj fields))).deleting = true
          ∧ TodoApp.afterItem net token app (TodoItem.handleDelete net token (.obj fields))
            = app.run (TodoApp.fetchTodos net token))
      ∧ ((net (api.deleteTodo net token (Todo.idOf fields)).1 = .rejected
            ∨ ∃ res, net (api.deleteTodo net token (Todo.idOf fields)).1 = .resolved res
              ∧ res.ok = false) →
        TodoItem.handleDelete net token (.obj fields)
            = [.setDeleting true, .fetch (api.deleteTodo net token (Todo.idOf fields)).1,
                .setDeleting false]
          ∧ (item.run (TodoItem.handleDelete net token (.obj fields))).deleting = false
          ∧ TodoApp.afterItem net token app (TodoItem.handleDelete net token (.obj fields))
            = app
          ∧ (TodoApp.afterItem net token app
              (TodoItem.handleDelete net token (.obj fields))).todos = app.todos
          ∧ TodoApp.filtered (TodoApp.afterItem net token app
              (TodoItem.handleDelete net token (.obj fields))) = TodoApp.filtered app) := by
  have hok : ∀ v, (api.deleteTodo net token (Todo.idOf fields)).2 = .ok v →
      TodoItem.handleDelete net token (.obj fields)
          = [.setDeleting true, .fetch (api.deleteTodo net token (Todo.idOf fields)).1,
              .onUpdate]
        ∧ (item.run (TodoItem.handleDelete net token (.obj fields))).deleting = true
        ∧ TodoApp.afterItem net token app (TodoItem.handleDelete net token (.obj fields))
          = app.run (TodoApp.fetchTodos net token) := by
    intro v hv
    have hrun : TodoItem.handleDelete net token (.obj fields)
        = [.setDeleting true, .fetch (api.deleteTodo net token (Todo.idOf fields)).1,
            .onUpdate] := by
      simp only [Todo.idOf] at hv ⊢
      simp [TodoItem.handleDelete, JSVal.getProp, hv]
    rw [hrun]
    exact ⟨rfl, rfl, rfl⟩
  have herr : ∀ e, (api.deleteTodo net token (Todo.idOf fields)).2 = .error e →
      TodoItem.handleDelete net token (.obj fields)
          = [.setDeleting true, .fetch (api.deleteTodo net token (Todo.idOf fields)).1,
              .setDeleting false]
        ∧ (item.run (TodoItem.handleDelete net token (.obj fields))).deleting = false
        ∧ TodoApp.afterItem net token app (TodoItem.handleDelete net token (.obj fields))
          = app
        ∧ (TodoApp.afterItem net token app
            (TodoItem.handleDelete net token (.obj fields))).todos = app.todos
        ∧ TodoApp.filtered (TodoApp.afterItem net token app
            (TodoItem.handleDelete net token (.obj fields))) = TodoApp.filtered app := by
    intro e he
    have hrun : TodoItem.handleDelete net token (.obj fields)
        = [.setDeleting true, .fetch (api.deleteTodo net token (Todo.idOf fields)).1,
            .setDeleting false] := by
      simp only [Todo.idOf] at he ⊢
      simp [TodoItem.handleDelete, JSVal.getProp, he]
    rw [hrun]
    exact ⟨rfl, rfl, rfl, rfl, rfl⟩
  refine ⟨todos_url _, fun s hs => todos_url_str fields s hs,
    fun text ht => todos_url_num fields text ht, rfl, rfl, hok, herr,
    fun status v hnet => hok v (api.request_resolved net _ _ token status v hnet),
    fun hfail => ?_⟩
  obtain ⟨e, he⟩ := api.request_failed net _ _ token hfail
  exact herr e he

/-- The todo "Pay bills" toggled on a server that accepts the update: one `PUT`
to `/todos/2` with body `{completed: false}`, then one `onUpdate`.  A todo whose
id is the number 1e21, toggled on a server that answers 500: one `PUT` to
`/todos/1e+21` with body `{completed: true}` and nothing more.  A todo with the
string id "a1f" is addressed at `/todos/a1f`. -/
theorem toggle_issues_put_witness :
    TodoItem.handleToggle (Net.answering (.obj [])) (.str "abc")
        (.obj [("id", .num "2"), ("title", .str "Pay bills"), ("completed", .bool true)])
        = [.fetch ⟨"https://api.todoodoo.com/todos/2", some "PUT",
              some (.json (.obj [("completed", .bool false)])),
              [("Content-Type", "application/json"), ("Authorization", "Bearer abc")]⟩,
            .onUpdate]
      ∧ TodoItem.handleToggle (Net.refusing 500 .null) (.str "abc")
          (.obj [("id", .num "1e+21"), ("completed", .bool false)])
        = [.fetch ⟨"https://api.todoodoo.com/todos/1e+21", some "PUT",
              some (.json (.obj [("completed", .bool true)])),
              [("Content-Type", "application/json"), ("Authorization", "Bearer abc")]⟩]
      ∧ (api.updateTodo (Net.answering (.obj [])) (.str "abc")
          (Todo.idOf [("id", .str "a1f"), ("completed", .bool false)])
          (.bool (!(Todo.completedOf [("id", .str "a1f"), ("completed", .bool false)]).truthy))).1.url
        = "https://api.todoodoo.com/todos/a1f" :=
  ⟨((toggle_issues_put (Net.answering (.obj [])) (.str "abc")
      [("id", .num "2"), ("title", .str "Pay bills"), ("completed", .bool true)]
      TodoApp.init).2.2.2.2.2.2.2.2.1 200 (.obj []) rfl).1,
    ((toggle_issues_put (Net.refusing 500 .null) (.str "abc")
      [("id", .num "1e+21"), ("completed", .bool false)]
      TodoApp.init).2.2.2.2.2.2.2.2.2 (Or.inr ⟨⟨false, 500, some .null⟩, rfl, rfl⟩)).1,
    (toggle_issues_put (Net.answering (.obj [])) (.str "abc")
      [("id", .str "a1f"), ("completed", .bool false)] TodoApp.init).2.1 "a1f" rfl⟩

/-- The todo "Pay bills" deleted on a server that answers 500: `deleting` is set,
one `DELETE` goes to `/todos/2`, `deleting` is reset, and the list held by
`TodoApp` is the one before.  The same todo deleted on a server that accepts:
`deleting` is set, one `DELETE` goes to `/todos/2`, then one `onUpdate`.  A todo
whose id is the number 2^63 is addressed at `/todos/9223372036854776000`. -/
theorem delete_issues_delete_witness :
    TodoItem.handleDelete (Net.refusing 500 .null) (.str "abc")
        (.obj [("id", .num "2"), ("title", .str "Pay bills"), ("completed", .bool true)])
        = [.setDeleting true,
            .fetch ⟨"https://api.todoodoo.com/todos/2", some "DELETE", none,
              [("Content-Type", "application/json"), ("Authorization", "Bearer abc")]⟩,
            .setDeleting false]
      ∧ (TodoItem.State.run ⟨false⟩ (TodoItem.handleDelete (Net.refusing 500 .null)
          (.str "abc")
          (.obj [("id", .num "2"), ("title", .str "Pay bills"),
            ("completed", .bool true)]))).deleting = false
      ∧ TodoApp.afterItem (Net.refusing 500 .null) (.str "abc")
          ⟨.arr exampleTodos, false, "all"⟩
          (TodoItem.handleDelete (Net.refusing 500 .null) (.str "abc")
            (.obj [("id", .num "2"), ("title", .str "Pay bills"), ("completed", .bool true)]))
        = ⟨.arr exampleTodos, false, "all"⟩
      ∧ TodoItem.handleDelete (Net.answering (.obj [])) (.str "abc")
          (.obj [("id", .num "2"), ("title", .str "Pay bills"), ("completed", .bool true)])
        = [.setDeleting true,
            .fetch ⟨"https://api.todoodoo.com/todos/2", some "DELETE", none,
              [("Content-Type", "application/json"), ("Authorization", "Bearer abc")]⟩,
            .onUpdate]
      ∧ (api.deleteTodo (Net.answering (.obj [])) (.str "abc")
          (Todo.idOf [("id", .num "9223372036854776000")])).1.url
        = "https://api.todoodoo.com/todos/9223372036854776000" :=
  have hfail := (delete_issues_delete (Net.refusing 500 .null) (.str "abc")
    [("id", .num "2"), ("title", .str "Pay bills"), ("completed", .bool true)] ⟨false⟩
    ⟨.arr exampleTodos, false, "all"⟩).2.2.2.2.2.2.2.2
    (Or.inr ⟨⟨false, 500, some .null⟩, rfl, rfl⟩)
  have hok := (delete_issues_delete (Net.answering (.obj [])) (.str "abc")
    [("id", .num "2"), ("title", .str "Pay bills"), ("completed", .bool true)] ⟨false⟩
    ⟨.arr exampleTodos, false, "all"⟩).2.2.2.2.2.2.2.1 200 (.obj []) rfl
  ⟨hfail.1, hfail.2.1, hfail.2.2.1, hok.1,
    (delete_issues_delete (Net.answering (.obj [])) (.str "abc")
      [("id", .num "9223372036854776000")] ⟨false⟩ TodoApp.init).2.2.1
      "9223372036854776000" rfl⟩

/-! ## The fetch cycle -/

/-- C10: in every state `TodoApp` reaches by settled fetches and filter clicks,
the held todo list is the collection of the last successful fetch, unmodified
(the empty list before any), and both `filtered` and the items shown are that
collection restricted by the current filter; a failed fetch and a filter click
leave the held list as it was, and a successful fetch replaces it with its own
collection, whatever the list was before. -/
theorem displayed_is_last_fetch (token : JSVal) (as : List TodoApp.Action)
    (hw : ∀ a ∈ as, a.wellFormed) :
    (TodoApp.exec token TodoApp.init as).todos = .arr (Spec.lastCollection as)
      ∧ TodoApp.filtered (TodoApp.exec token TodoApp.init as)
        = .ok (Spec.restrict (TodoApp.exec token TodoApp.init as).filter
            (Spec.lastCollection as))
      ∧ (TodoApp.render (TodoApp.exec token TodoApp.init as)).map (fun v => v.list.shown)
        = .ok (Spec.restrict (TodoApp.exec token TodoApp.init as).filter
            (Spec.lastCollection as))
      ∧ (∀ (s : TodoApp.State) (r : FetchResult) (e : JSError), api.settle r = .error e →
        (TodoApp.step token s (.fetchSettled r)).todos = s.todos)
      ∧ (∀ (s : TodoApp.State) (f : String),
        (TodoApp.step token s (.filterClicked f)).todos = s.todos)
      ∧ (∀ (s : TodoApp.State) (r : FetchResult) (data : JSVal) (xs : List JSVal),
        api.settle r = .ok data → Spec.collection data = some xs →
        (TodoApp.step token s (.fetchSettled r)).todos = .arr xs) := by
  have hinv := Inv_exec token as TodoApp.init [] hw
    ⟨rfl, fun t ht => absurd ht (List.not_mem_nil t), fun _ => rfl⟩
  obtain ⟨ht, hty, hl⟩ : TodoApp.Inv (TodoApp.exec token TodoApp.init as)
    (Spec.lastCollection as) := hinv
  have hstate : TodoApp.exec token TodoApp.init as
      = ⟨.arr (Spec.lastCollection as), (TodoApp.exec token TodoApp.init as).loading,
          (TodoApp.exec token TodoApp.init as).filter⟩ := by
    rw [← ht]
  refine ⟨ht, ?_, ?_, fun s r e he => ?_, fun s f => rfl, fun s r data xs hd hc => ?_⟩
  · rw [hstate]; exact filtered_eq_restrict _ _ _ hty
  · rw [hstate]; exact render_shown _ _ _ hty hl
  · rw [step_fetch_error token s r e he]
  · rw [step_fetch_ok token s r data xs hd hc]

/-- A history over the example collection: a fetch that returns it, a click on
"done", then a fetch refused with status 500; the held list is still the
collection and the item shown is "Pay bills". -/
theorem displayed_is_last_fetch_witness :
    (TodoApp.exec (.str "abc") TodoApp.init
        [.fetchSettled (.resolved ⟨true, 200, some (.arr exampleTodos)⟩),
          .filterClicked "done",
          .fetchSettled (.resolved ⟨false, 500, some .null⟩)]).todos = .arr exampleTodos
      ∧ TodoApp.filtered (TodoApp.exec (.str "abc") TodoApp.init
        [.fetchSettled (.resolved ⟨true, 200, some (.arr exampleTodos)⟩),
          .filterClicked "done",
          .fetchSettled (.resolved ⟨false, 500, some .null⟩)])
        = .ok [.obj [("id", .num "2"), ("title", .str "Pay bills"), ("completed", .bool true)]] :=
  have h := displayed_is_last_fetch (.str "abc")
    [.fetchSettled (.resolved ⟨true, 200, some (.arr exampleTodos)⟩),
      .filterClicked "done",
      .fetchSettled (.resolved ⟨false, 500, some .null⟩)]
    (by
      intro a ha
      simp only [List.mem_cons, List.mem_singleton, List.not_mem_nil, or_false] at ha
      rcases ha with rfl | rfl | rfl
      · intro data hd
        refine ⟨exampleTodos, ?_, by unfold Todo.allTyped; decide⟩
        cases hd
        rfl
      · exact Or.inr (Or.inr rfl)
      · intro data hd
        cases hd)
  ⟨h.1, h.2.1⟩

end Todoodoo
